import Mathlib

/-!
Verification development for the argpar command-line argument parsing
library (argpar.c).  The parsing engine is embedded shallowly: C strings
become lists of characters, the iterator structure becomes a Lean
structure, and each C function of the engine becomes a Lean function
with the same branching structure.  Theorems about the engine follow the
definitions.
-/

namespace Argpar

/-- A C string, as the list of its characters (up to the NUL terminator). -/
abbrev Str := List Char

/-- The NUL character, used by the C code as the "no short name" marker
and as the string terminator. -/
def nulChar : Char := Char.ofNat 0

/-- Embeds `struct argpar_opt_descr`: numeric id, short option character
(`nulChar` meaning none), optional long option name, and whether the
option takes an argument (`with_arg`). -/
structure OptDescr where
  id : Int
  shortName : Char
  longName : Option Str
  withArg : Bool
deriving DecidableEq

/-- Embeds the parsing items (`struct argpar_item_opt` /
`struct argpar_item_non_opt`): an option item holds its descriptor and
an optional argument value, a non-option item holds the borrowed
argument text plus the original index and the non-option index. -/
inductive Item where
  | opt (descr : OptDescr) (arg : Option Str)
  | nonOpt (arg : Str) (origIndex : Nat) (nonOptIndex : Nat)
deriving DecidableEq

/-- The distinct error messages the engine can produce, one constructor
per `try_append_string_printf` site in argpar.c, with the payload that
the format string interpolates. -/
inductive ParseErr where
  | invalidArg
  | invalidArgLongOpt (longOptArg : Str)
  | unknownOptShort (c : Char)
  | unknownOptLong (name : Str)
  | missingOptArgShort (c : Char)
  | missingOptArgLong (name : Str)
  | unexpectedOptArgLong (name : Str)
deriving DecidableEq

/-- Embeds `struct argpar_iter`: the immutable inputs (`argv`, `descrs`;
`argc` is `argv.length`), the index `i` of the next original argument,
the non-option counter, and the current position within a short option
group (`short_opt_ch`), modelled as the remaining suffix of the group. -/
structure Iter where
  argv : List Str
  descrs : List OptDescr
  i : Nat
  nonOptIndex : Nat
  shortOptCh : Option Str
deriving DecidableEq

/-- Embeds `argpar_iter_create`: zero-initialized parsing state. -/
def argpar_iter_create (argv : List Str) (descrs : List OptDescr) : Iter :=
  { argv := argv, descrs := descrs, i := 0, nonOptIndex := 0, shortOptCh := none }

/-- Embeds `argpar_iter_get_ingested_orig_args`. -/
def argpar_iter_get_ingested_orig_args (iter : Iter) : Nat :=
  iter.i

/-- The long-name part of the matching condition of `find_descr`: both
the query and the descriptor carry a long name and the names compare
equal under `strcmp`. -/
def longNameMatches (longName : Option Str) (descrLongName : Option Str) : Bool :=
  match longName, descrLongName with
  | some n, some m => n = m
  | _, _ => false

/-- Embeds `find_descr`: first descriptor matching the queried short
name (a NUL query or NUL descriptor field never matches) or the queried
long name.  The list holds the descriptors before the sentinel. -/
def find_descr (descrs : List OptDescr) (shortName : Char) (longName : Option Str) :
    Option OptDescr :=
  match descrs with
  | [] => none
  | descr :: rest =>
    if shortName ≠ nulChar ∧ descr.shortName ≠ nulChar ∧ shortName = descr.shortName then
      some descr
    else if longNameMatches longName descr.longName then
      some descr
    else
      find_descr rest shortName longName

/-- Embeds `strchr(s, c)` followed by splitting at the found position:
`some (before, after)` for the first occurrence of `c`, `none` if `c`
does not occur. -/
def strchrSplit (c : Char) : Str → Option (Str × Str)
  | [] => none
  | a :: rest =>
    if a = c then some ([], rest)
    else
      match strchrSplit c rest with
      | some p => some (a :: p.1, p.2)
      | none => none

/-- Embeds `enum parse_orig_arg_opt_ret` together with the error message
that the C code appends to `*error` on the error paths. -/
inductive ParseOrigArgOptRet where
  | ok (item : Item)
  | errorUnknownOpt (err : ParseErr)
  | error (err : ParseErr)
deriving DecidableEq

/-- Embeds `parse_short_opts`.  `short_opts` is the original argument
without its leading `-`.  Returns the status (with the produced item or
the error) and the updated iterator. -/
def parse_short_opts (short_opts : Str) (next_orig_arg : Option Str)
    (descrs : List OptDescr) (iter : Iter) : ParseOrigArgOptRet × Iter :=
  if short_opts = [] then
    (.error .invalidArg, iter)
  else
    let cur := iter.shortOptCh.getD short_opts
    let iter1 := { iter with shortOptCh := some cur }
    let c := cur.headD nulChar
    match find_descr descrs c none with
    | none => (.errorUnknownOpt (.unknownOptShort c), iter1)
    | some descr =>
      if descr.withArg then
        let rest := cur.tail
        let optArg : Option Str := if rest ≠ [] then some rest else next_orig_arg
        if optArg = none ∨ (rest ≠ [] ∧ optArg.getD [] = []) then
          (.error (.missingOptArgShort c), iter1)
        else
          (.ok (.opt descr optArg),
            { iter1 with shortOptCh := none,
                         i := iter1.i + (if rest = [] then 2 else 1) })
      else
        let rest := cur.tail
        if rest = [] then
          (.ok (.opt descr none), { iter1 with shortOptCh := none, i := iter1.i + 1 })
        else
          (.ok (.opt descr none), { iter1 with shortOptCh := some rest })

/-- Embeds `parse_long_opt`.  `long_opt_arg` is the original argument
without its leading `--`.  The name part of an `=` form argument must
fit the 127-character buffer. -/
def parse_long_opt (long_opt_arg : Str) (next_orig_arg : Option Str)
    (descrs : List OptDescr) (iter : Iter) : ParseOrigArgOptRet × Iter :=
  if long_opt_arg = [] then
    (.error .invalidArg, iter)
  else
    match strchrSplit '=' long_opt_arg with
    | some (name, inlineVal) =>
      if name.length > 127 then
        (.error (.invalidArgLongOpt long_opt_arg), iter)
      else
        match find_descr descrs nulChar (some name) with
        | none => (.errorUnknownOpt (.unknownOptLong name), iter)
        | some descr =>
          if descr.withArg then
            (.ok (.opt descr (some inlineVal)), { iter with i := iter.i + 1 })
          else
            (.error (.unexpectedOptArgLong name), iter)
    | none =>
      match find_descr descrs nulChar (some long_opt_arg) with
      | none => (.errorUnknownOpt (.unknownOptLong long_opt_arg), iter)
      | some descr =>
        if descr.withArg then
          match next_orig_arg with
          | none => (.error (.missingOptArgLong long_opt_arg), iter)
          | some next => (.ok (.opt descr (some next)), { iter with i := iter.i + 2 })
        else
          (.ok (.opt descr none), { iter with i := iter.i + 1 })

/-- Embeds `parse_orig_arg_opt`: dispatches on the second character of
the original argument (the first is known to be `-`). -/
def parse_orig_arg_opt (orig_arg : Str) (next_orig_arg : Option Str)
    (descrs : List OptDescr) (iter : Iter) : ParseOrigArgOptRet × Iter :=
  if orig_arg.tail.headD nulChar = '-' then
    parse_long_opt orig_arg.tail.tail next_orig_arg descrs iter
  else
    parse_short_opts orig_arg.tail next_orig_arg descrs iter

/-- Embeds `enum argpar_iter_parse_next_status`, pairing the error
statuses with the original argument index and text that
`try_prepend_while_parsing_arg_to_error` reports, and the message. -/
inductive NextStatus where
  | ok (item : Item)
  | atEnd
  | errorUnknownOpt (origIndex : Nat) (origArg : Str) (err : ParseErr)
  | error (origIndex : Nat) (origArg : Str) (err : ParseErr)
deriving DecidableEq

/-- Embeds `argpar_iter_parse_next`: returns the status (with item or
error details) and the updated iterator. -/
def argpar_iter_parse_next (iter : Iter) : NextStatus × Iter :=
  if iter.i = iter.argv.length then
    (.atEnd, iter)
  else
    let orig_arg := iter.argv.getD iter.i []
    let next_orig_arg : Option Str :=
      if iter.i < iter.argv.length - 1 then some (iter.argv.getD (iter.i + 1) []) else none
    if orig_arg.headD nulChar ≠ '-' then
      (.ok (.nonOpt orig_arg iter.i iter.nonOptIndex),
        { iter with nonOptIndex := iter.nonOptIndex + 1, i := iter.i + 1 })
    else
      match parse_orig_arg_opt orig_arg next_orig_arg iter.descrs iter with
      | (.ok item, iter') => (.ok item, iter')
      | (.errorUnknownOpt e, iter') => (.errorUnknownOpt iter'.i orig_arg e, iter')
      | (.error e, iter') => (.error iter'.i orig_arg e, iter')

/-- Why one run of the `argpar_parse` loop stopped. -/
inductive StopReason where
  | reachedEnd
  | unknownOpt (origIndex : Nat) (origArg : Str) (err : ParseErr)
  | failed (origIndex : Nat) (origArg : Str) (err : ParseErr)
  | outOfFuel
deriving DecidableEq

/-- The `argpar_parse` loop: repeatedly calls the engine, collecting the
items of the OK calls, until End or an error.  `fuel` bounds the number
of calls; `suffFuel` below always suffices (see
`runIter_ne_outOfFuel`). -/
def runIter : Nat → Iter → List Item × Iter × StopReason
  | 0, iter => ([], iter, .outOfFuel)
  | fuel + 1, iter =>
    match argpar_iter_parse_next iter with
    | (.atEnd, iter') => ([], iter', .reachedEnd)
    | (.ok item, iter') =>
      let r := runIter fuel iter'
      (item :: r.1, r.2)
    | (.errorUnknownOpt idx arg e, iter') => ([], iter', .unknownOpt idx arg e)
    | (.error idx arg e, iter') => ([], iter', .failed idx arg e)

/-- An upper bound on the number of engine calls a run can make: each
call either consumes at least one character of an argument or one whole
argument, or stops the run. -/
def suffFuel (argv : List Str) : Nat :=
  (argv.map (fun a => a.length + 2)).sum + 1

/-- Embeds `struct argpar_parse_ret`: either the collected items with
the ingested count, or the error (index, argument, message) with the
ingested count the C code leaves in the structure. -/
inductive BulkResult where
  | success (items : List Item) (ingestedOrigArgs : Nat)
  | failure (origIndex : Nat) (origArg : Str) (err : ParseErr) (ingestedOrigArgs : Nat)
deriving DecidableEq

/-- Embeds `argpar_parse`: drains the iterator.  An unknown option
aborts when `failOnUnknownOpt`, and otherwise soft-stops, keeping the
items collected so far and reporting success.  On the other errors the
C code leaves `ingested_orig_args` zero-initialized. -/
def argpar_parse (argv : List Str) (descrs : List OptDescr) (failOnUnknownOpt : Bool) :
    BulkResult :=
  let r := runIter (suffFuel argv) (argpar_iter_create argv descrs)
  match r.2.2 with
  | .reachedEnd => .success r.1 r.2.1.i
  | .unknownOpt idx arg e =>
    if failOnUnknownOpt then .failure idx arg e r.2.1.i
    else .success r.1 r.2.1.i
  | .failed idx arg e => .failure idx arg e 0
  | .outOfFuel => .failure 0 [] .invalidArg 0

/-- The items of a bulk parsing result (empty on failure, matching the
C code destroying the array). -/
def BulkResult.itemsList : BulkResult → List Item
  | .success items _ => items
  | .failure _ _ _ _ => []

/-- Combined weight of the original arguments from position `j` on;
used as a termination measure for the parsing loop. -/
def argvTailWeight (argv : List Str) (j : Nat) : Nat :=
  ((argv.drop j).map (fun a => a.length + 2)).sum

/-- Remaining work of an iterator: weight of the argument under
processing (or of the remaining short option group) plus the weight of
the arguments after it. -/
def iterFuel (iter : Iter) : Nat :=
  if iter.i < iter.argv.length then
    (match iter.shortOptCh with
     | none => (iter.argv.getD iter.i []).length + 2
     | some s => s.length + 1) + argvTailWeight iter.argv (iter.i + 1)
  else 0

/-- The data of a non-option item: borrowed argument text, original
index and non-option index. -/
structure NonOptRec where
  arg : Str
  origIndex : Nat
  nonOptIndex : Nat
deriving DecidableEq

/-- The non-option items of an item list, in order. -/
def nonOptRecs (items : List Item) : List NonOptRec :=
  items.filterMap fun it =>
    match it with
    | .opt _ _ => none
    | .nonOpt a oi ni => some ⟨a, oi, ni⟩

/-- Placeholder record for out-of-range list reads. -/
def dummyRec : NonOptRec :=
  ⟨[], 0, 0⟩

/-- Whether an error is one of the two missing-option-argument
messages. -/
def ParseErr.isMissingOptArg : ParseErr → Prop
  | .missingOptArgShort _ => True
  | .missingOptArgLong _ => True
  | _ => False

/-- Converts a Lean string literal to the character list the embedding
works on. -/
def str (s : String) : Str :=
  s.data

end Argpar

namespace Argpar

/-! ### Shape lemmas for the engine's transition function -/

theorem parse_long_opt_error_iter {body next descrs iter e iter'}
    (h : parse_long_opt body next descrs iter = (.error e, iter')) : iter' = iter := by
  unfold parse_long_opt at h
  repeat' split at h
  all_goals simp only [Prod.mk.injEq] at h
  all_goals obtain ⟨h1, h2⟩ := h
  all_goals cases h1
  all_goals exact h2.symm

theorem parse_long_opt_unknown_iter {body next descrs iter e iter'}
    (h : parse_long_opt body next descrs iter = (.errorUnknownOpt e, iter')) : iter' = iter := by
  unfold parse_long_opt at h
  repeat' split at h
  all_goals simp only [Prod.mk.injEq] at h
  all_goals obtain ⟨h1, h2⟩ := h
  all_goals cases h1
  all_goals exact h2.symm

theorem parse_long_opt_ok_shape {body next descrs iter item iter'}
    (h : parse_long_opt body next descrs iter = (.ok item, iter')) :
    (∃ d v, item = .opt d v) ∧
      ((iter' = { iter with i := iter.i + 1 }) ∨
        (iter' = { iter with i := iter.i + 2 } ∧ next ≠ none)) := by
  unfold parse_long_opt at h
  repeat' split at h
  all_goals simp only [Prod.mk.injEq] at h
  all_goals obtain ⟨h1, h2⟩ := h
  all_goals cases h1
  all_goals subst h2
  all_goals refine ⟨⟨_, _, rfl⟩, ?_⟩
  all_goals first
    | exact Or.inl rfl
    | exact Or.inr ⟨rfl, by simp_all⟩

theorem parse_short_opts_error_shape {so next descrs iter e iter'}
    (h : parse_short_opts so next descrs iter = (.error e, iter')) :
    iter'.argv = iter.argv ∧ iter'.descrs = iter.descrs ∧ iter'.i = iter.i ∧
      iter'.nonOptIndex = iter.nonOptIndex := by
  simp only [parse_short_opts] at h
  repeat' split at h
  all_goals simp only [Prod.mk.injEq] at h
  all_goals obtain ⟨h1, h2⟩ := h
  all_goals cases h1
  all_goals subst h2
  all_goals exact ⟨rfl, rfl, rfl, rfl⟩

theorem parse_short_opts_unknown_shape {so next descrs iter e iter'}
    (h : parse_short_opts so next descrs iter = (.errorUnknownOpt e, iter')) :
    iter'.argv = iter.argv ∧ iter'.descrs = iter.descrs ∧ iter'.i = iter.i ∧
      iter'.nonOptIndex = iter.nonOptIndex := by
  simp only [parse_short_opts] at h
  repeat' split at h
  all_goals simp only [Prod.mk.injEq] at h
  all_goals obtain ⟨h1, h2⟩ := h
  all_goals cases h1
  all_goals subst h2
  all_goals exact ⟨rfl, rfl, rfl, rfl⟩

theorem parse_short_opts_ok_shape {so next descrs iter item iter'}
    (h : parse_short_opts so next descrs iter = (.ok item, iter')) :
    (∃ d v, item = .opt d v) ∧
      ((∃ cur, cur = iter.shortOptCh.getD so ∧ cur.tail ≠ [] ∧
          iter' = { iter with shortOptCh := some cur.tail }) ∨
        (iter' = { iter with shortOptCh := none, i := iter.i + 1 }) ∨
        (iter' = { iter with shortOptCh := none, i := iter.i + 2 } ∧ next ≠ none)) := by
  simp only [parse_short_opts] at h
  repeat' split at h
  all_goals simp only [Prod.mk.injEq] at h
  all_goals obtain ⟨h1, h2⟩ := h
  all_goals cases h1
  all_goals subst h2
  all_goals refine ⟨⟨_, _, rfl⟩, ?_⟩
  all_goals first
    | exact Or.inr (Or.inl rfl)
    | exact Or.inr (Or.inr ⟨rfl, by simp_all⟩)
    | exact Or.inl ⟨_, rfl, by simp_all, rfl⟩

theorem parse_orig_arg_opt_error_shape {oa next descrs iter e iter'}
    (h : parse_orig_arg_opt oa next descrs iter = (.error e, iter')) :
    iter'.argv = iter.argv ∧ iter'.descrs = iter.descrs ∧ iter'.i = iter.i ∧
      iter'.nonOptIndex = iter.nonOptIndex := by
  unfold parse_orig_arg_opt at h
  split at h
  · rw [parse_long_opt_error_iter h]
    exact ⟨rfl, rfl, rfl, rfl⟩
  · exact parse_short_opts_error_shape h

theorem parse_orig_arg_opt_unknown_shape {oa next descrs iter e iter'}
    (h : parse_orig_arg_opt oa next descrs iter = (.errorUnknownOpt e, iter')) :
    iter'.argv = iter.argv ∧ iter'.descrs = iter.descrs ∧ iter'.i = iter.i ∧
      iter'.nonOptIndex = iter.nonOptIndex := by
  unfold parse_orig_arg_opt at h
  split at h
  · rw [parse_long_opt_unknown_iter h]
    exact ⟨rfl, rfl, rfl, rfl⟩
  · exact parse_short_opts_unknown_shape h

theorem parse_orig_arg_opt_ok_shape {oa next descrs iter item iter'}
    (h : parse_orig_arg_opt oa next descrs iter = (.ok item, iter')) :
    (∃ d v, item = .opt d v) ∧
      ((∃ cur, cur = iter.shortOptCh.getD oa.tail ∧ cur.tail ≠ [] ∧
          iter' = { iter with shortOptCh := some cur.tail }) ∨
        (∃ sc, (sc = iter.shortOptCh ∨ sc = none) ∧
          ((iter' = { iter with shortOptCh := sc, i := iter.i + 1 }) ∨
            (iter' = { iter with shortOptCh := sc, i := iter.i + 2 } ∧ next ≠ none)))) := by
  unfold parse_orig_arg_opt at h
  split at h
  · obtain ⟨hd, hcase⟩ := parse_long_opt_ok_shape h
    refine ⟨hd, Or.inr ⟨iter.shortOptCh, Or.inl rfl, ?_⟩⟩
    rcases hcase with h1 | ⟨h1, h2⟩
    · exact Or.inl h1
    · exact Or.inr ⟨h1, h2⟩
  · obtain ⟨hd, hcase⟩ := parse_short_opts_ok_shape h
    refine ⟨hd, ?_⟩
    rcases hcase with ⟨cur, hc, hne, hit⟩ | h1 | ⟨h1, h2⟩
    · exact Or.inl ⟨cur, hc, hne, hit⟩
    · exact Or.inr ⟨none, Or.inr rfl, Or.inl h1⟩
    · exact Or.inr ⟨none, Or.inr rfl, Or.inr ⟨h1, h2⟩⟩

theorem parse_next_of_end {iter : Iter} (h : iter.i = iter.argv.length) :
    argpar_iter_parse_next iter = (.atEnd, iter) := by
  unfold argpar_iter_parse_next
  rw [if_pos h]

theorem parse_next_atEnd_shape {iter iter' : Iter}
    (h : argpar_iter_parse_next iter = (.atEnd, iter')) :
    iter' = iter ∧ iter.i = iter.argv.length := by
  simp only [argpar_iter_parse_next] at h
  repeat' split at h
  all_goals simp only [Prod.mk.injEq] at h
  all_goals obtain ⟨h1, h2⟩ := h
  all_goals cases h1
  all_goals exact ⟨h2.symm, by assumption⟩

theorem parse_next_unknown_shape {iter idx a e iter'}
    (h : argpar_iter_parse_next iter = (.errorUnknownOpt idx a e, iter')) :
    iter'.argv = iter.argv ∧ iter'.descrs = iter.descrs ∧ iter'.i = iter.i ∧
      iter'.nonOptIndex = iter.nonOptIndex ∧ idx = iter.i ∧
      a = iter.argv.getD iter.i [] := by
  simp only [argpar_iter_parse_next] at h
  repeat' split at h
  all_goals simp only [Prod.mk.injEq] at h
  all_goals obtain ⟨h1, h2⟩ := h
  all_goals cases h1
  all_goals subst h2
  all_goals rename_i heq
  all_goals obtain ⟨ha, hd, hi, hn⟩ := parse_orig_arg_opt_unknown_shape heq
  all_goals exact ⟨ha, hd, hi, hn, hi, rfl⟩

theorem parse_next_error_shape {iter idx a e iter'}
    (h : argpar_iter_parse_next iter = (.error idx a e, iter')) :
    iter'.argv = iter.argv ∧ iter'.descrs = iter.descrs ∧ iter'.i = iter.i ∧
      iter'.nonOptIndex = iter.nonOptIndex ∧ idx = iter.i ∧
      a = iter.argv.getD iter.i [] := by
  simp only [argpar_iter_parse_next] at h
  repeat' split at h
  all_goals simp only [Prod.mk.injEq] at h
  all_goals obtain ⟨h1, h2⟩ := h
  all_goals cases h1
  all_goals subst h2
  all_goals rename_i heq
  all_goals obtain ⟨ha, hd, hi, hn⟩ := parse_orig_arg_opt_error_shape heq
  all_goals exact ⟨ha, hd, hi, hn, hi, rfl⟩

theorem parse_next_ok_shape {iter item iter'}
    (h : argpar_iter_parse_next iter = (.ok item, iter')) :
    iter.i ≠ iter.argv.length ∧
      ((item = .nonOpt (iter.argv.getD iter.i []) iter.i iter.nonOptIndex ∧
          iter' = { iter with nonOptIndex := iter.nonOptIndex + 1, i := iter.i + 1 }) ∨
        ((∃ d v, item = .opt d v) ∧
          ((∃ cur, cur = iter.shortOptCh.getD ((iter.argv.getD iter.i []).tail) ∧
              cur.tail ≠ [] ∧ iter' = { iter with shortOptCh := some cur.tail }) ∨
            (∃ sc, (sc = iter.shortOptCh ∨ sc = none) ∧
              ((iter' = { iter with shortOptCh := sc, i := iter.i + 1 }) ∨
                (iter' = { iter with shortOptCh := sc, i := iter.i + 2 } ∧
                  iter.i + 1 < iter.argv.length)))))) := by
  simp only [argpar_iter_parse_next] at h
  repeat' split at h
  all_goals simp only [Prod.mk.injEq] at h
  all_goals obtain ⟨h1, h2⟩ := h
  all_goals cases h1
  all_goals subst h2
  all_goals refine ⟨by assumption, ?_⟩
  all_goals try exact Or.inl ⟨rfl, rfl⟩
  all_goals rename_i heq
  all_goals obtain ⟨hd, hcase⟩ := parse_orig_arg_opt_ok_shape heq
  all_goals refine Or.inr ⟨hd, ?_⟩
  all_goals rcases hcase with hstay | ⟨sc, hsc, hrest⟩
  all_goals try exact Or.inl hstay
  all_goals refine Or.inr ⟨sc, hsc, ?_⟩
  all_goals rcases hrest with h1 | ⟨h1, h2⟩
  all_goals try exact Or.inl h1
  all_goals refine Or.inr ⟨h1, ?_⟩
  all_goals first
    | exact absurd rfl h2
    | omega
    | (by_cases hlt : iter.i < iter.argv.length - 1
       · omega
       · rw [if_neg hlt] at h2
         exact absurd rfl h2)

/-! ### Termination measure lemmas -/

theorem argvTailWeight_nil_of_le {argv : List Str} {j : Nat} (h : argv.length ≤ j) :
    argvTailWeight argv j = 0 := by
  unfold argvTailWeight
  rw [List.drop_eq_nil_of_le h]
  rfl

theorem argvTailWeight_cons {argv : List Str} {j : Nat} (h : j < argv.length) :
    argvTailWeight argv j = ((argv.getD j []).length + 2) + argvTailWeight argv (j + 1) := by
  unfold argvTailWeight
  rw [List.drop_eq_getElem_cons h, List.map_cons, List.sum_cons,
    List.getD_eq_getElem argv [] h]

theorem argvTailWeight_succ_le {argv : List Str} {j : Nat} :
    argvTailWeight argv (j + 1) ≤ argvTailWeight argv j := by
  by_cases h : j < argv.length
  · rw [argvTailWeight_cons h]
    omega
  · rw [argvTailWeight_nil_of_le (by omega), argvTailWeight_nil_of_le (by omega)]

theorem iterFuel_def_none {argv : List Str} {descrs : List OptDescr} {j n : Nat} :
    iterFuel ⟨argv, descrs, j, n, none⟩ = argvTailWeight argv j := by
  simp only [iterFuel]
  split
  · rename_i h
    rw [argvTailWeight_cons h]
  · rename_i h
    rw [argvTailWeight_nil_of_le (by omega)]

theorem iterFuel_def_some {argv : List Str} {descrs : List OptDescr} {j n : Nat} {s : Str}
    (h : j < argv.length) :
    iterFuel ⟨argv, descrs, j, n, some s⟩ = s.length + 1 + argvTailWeight argv (j + 1) := by
  simp only [iterFuel]
  rw [if_pos h]

theorem iterFuel_def_stop {argv : List Str} {descrs : List OptDescr} {j n : Nat}
    {sc : Option Str} (h : ¬j < argv.length) :
    iterFuel ⟨argv, descrs, j, n, sc⟩ = 0 := by
  simp only [iterFuel]
  rw [if_neg h]

theorem iterFuel_decreases {iter : Iter} {item : Item} {iter' : Iter}
    (h : argpar_iter_parse_next iter = (.ok item, iter'))
    (hle : iter.i ≤ iter.argv.length) :
    iterFuel iter' < iterFuel iter := by
  obtain ⟨hne, hcase⟩ := parse_next_ok_shape h
  have hlt : iter.i < iter.argv.length := Nat.lt_of_le_of_ne hle hne
  obtain ⟨argv, descrs, i, nix, sc⟩ := iter
  simp only at hne hcase hlt
  rcases hcase with ⟨hitem, hiter⟩ | ⟨hd, hcase⟩
  · subst hiter
    cases sc with
    | none =>
      rw [iterFuel_def_none, iterFuel_def_none, argvTailWeight_cons hlt]
      omega
    | some s =>
      by_cases h2 : i + 1 < argv.length
      · rw [iterFuel_def_some h2, iterFuel_def_some hlt, argvTailWeight_cons h2]
        omega
      · rw [iterFuel_def_stop h2, iterFuel_def_some hlt]
        omega
  · rcases hcase with ⟨cur, hcur, hcne, hiter⟩ | ⟨sc2, hsc2, hrest⟩
    · subst hiter
      have hclen : cur.tail.length = cur.length - 1 := by simp
      cases sc with
      | none =>
        simp only [Option.getD_none] at hcur
        have hcl : cur.length = (argv.getD i []).length - 1 := by
          rw [hcur]
          simp
        rw [iterFuel_def_some hlt, iterFuel_def_none, argvTailWeight_cons hlt]
        omega
      | some w =>
        simp only [Option.getD_some] at hcur
        subst hcur
        have hsne : cur ≠ [] := by
          intro hh
          subst hh
          exact hcne rfl
        have hpos : 1 ≤ cur.length := List.length_pos.mpr hsne
        rw [iterFuel_def_some hlt, iterFuel_def_some hlt]
        omega
    · rcases hsc2 with rfl | rfl
      · rcases hrest with hiter | ⟨hiter, h2l⟩
        · subst hiter
          cases sc2 with
          | none =>
            rw [iterFuel_def_none, iterFuel_def_none, argvTailWeight_cons hlt]
            omega
          | some w =>
            by_cases h2 : i + 1 < argv.length
            · rw [iterFuel_def_some h2, iterFuel_def_some hlt, argvTailWeight_cons h2]
              have e1 : argvTailWeight argv (i + 1 + 1) = argvTailWeight argv (i + 2) := rfl
              omega
            · rw [iterFuel_def_stop h2, iterFuel_def_some hlt]
              omega
        · subst hiter
          have hw1 := @argvTailWeight_cons argv (i + 1) h2l
          have e1 : argvTailWeight argv (i + 1 + 1) = argvTailWeight argv (i + 2) := rfl
          have hmono : argvTailWeight argv (i + 2) ≤ argvTailWeight argv (i + 1) := by
            rw [hw1, e1]
            omega
          cases sc2 with
          | none =>
            rw [iterFuel_def_none, iterFuel_def_none, argvTailWeight_cons hlt]
            omega
          | some w =>
            by_cases h2 : i + 2 < argv.length
            · have hw2 := @argvTailWeight_cons argv (i + 2) h2
              have e2 : argvTailWeight argv (i + 2 + 1) = argvTailWeight argv (i + 3) := rfl
              rw [iterFuel_def_some h2, iterFuel_def_some hlt]
              omega
            · rw [iterFuel_def_stop h2, iterFuel_def_some hlt]
              omega
      · rcases hrest with hiter | ⟨hiter, h2l⟩
        · subst hiter
          rw [iterFuel_def_none]
          have hmono : argvTailWeight argv (i + 1) ≤ argvTailWeight argv i :=
            argvTailWeight_succ_le
          cases sc with
          | none =>
            rw [iterFuel_def_none, argvTailWeight_cons hlt]
            omega
          | some w =>
            rw [iterFuel_def_some hlt]
            omega
        · subst hiter
          rw [iterFuel_def_none]
          have hw1 := @argvTailWeight_cons argv (i + 1) h2l
          have e1 : argvTailWeight argv (i + 1 + 1) = argvTailWeight argv (i + 2) := rfl
          cases sc with
          | none =>
            rw [iterFuel_def_none, argvTailWeight_cons hlt]
            omega
          | some w =>
            rw [iterFuel_def_some hlt]
            omega

/-- Per-call bounds of the engine: the inputs are never mutated, the
position moves by 0, 1 or 2 and never past the argument count. -/
theorem parse_next_i_bounds {iter : Iter} {st : NextStatus} {iter' : Iter}
    (h : argpar_iter_parse_next iter = (st, iter')) :
    iter'.argv = iter.argv ∧ iter'.descrs = iter.descrs ∧
      iter.i ≤ iter'.i ∧ iter'.i ≤ iter.i + 2 ∧
      (iter.i ≤ iter.argv.length → iter'.i ≤ iter.argv.length) := by
  cases st with
  | atEnd =>
    obtain ⟨h1, h2⟩ := parse_next_atEnd_shape h
    subst h1
    exact ⟨rfl, rfl, le_refl _, by omega, fun hh => hh⟩
  | errorUnknownOpt idx a e =>
    obtain ⟨h1, h2, h3, _⟩ := parse_next_unknown_shape h
    exact ⟨h1, h2, by omega, by omega, fun hh => by omega⟩
  | error idx a e =>
    obtain ⟨h1, h2, h3, _⟩ := parse_next_error_shape h
    exact ⟨h1, h2, by omega, by omega, fun hh => by omega⟩
  | ok item =>
    obtain ⟨hne, hcase⟩ := parse_next_ok_shape h
    rcases hcase with ⟨_, hiter⟩ | ⟨_, hcase⟩
    · subst hiter
      refine ⟨rfl, rfl, ?_, ?_, fun hh => ?_⟩
      all_goals simp
      all_goals omega
    · rcases hcase with ⟨cur, _, _, hiter⟩ | ⟨sc, _, hrest⟩
      · subst hiter
        refine ⟨rfl, rfl, ?_, ?_, fun hh => ?_⟩
        all_goals simp
        all_goals omega
      · rcases hrest with hiter | ⟨hiter, h2l⟩
        · subst hiter
          refine ⟨rfl, rfl, ?_, ?_, fun hh => ?_⟩
          all_goals simp
          all_goals omega
        · subst hiter
          refine ⟨rfl, rfl, ?_, ?_, fun hh => ?_⟩
          all_goals simp
          all_goals omega

/-- With more fuel than the remaining work, a run never stops for lack
of fuel: `suffFuel` makes `runIter` compute exactly what the C loop
does. -/
theorem runIter_ne_outOfFuel {fuel : Nat} {iter : Iter}
    (hfuel : iterFuel iter < fuel) (hle : iter.i ≤ iter.argv.length) :
    (runIter fuel iter).2.2 ≠ .outOfFuel := by
  induction fuel generalizing iter with
  | zero => omega
  | succ n ih =>
    rcases hnext : argpar_iter_parse_next iter with ⟨st, iter'⟩
    cases st with
    | atEnd =>
      simp [runIter, hnext]
    | errorUnknownOpt idx a e =>
      simp [runIter, hnext]
    | error idx a e =>
      simp [runIter, hnext]
    | ok item =>
      have hdec := iterFuel_decreases hnext hle
      have hb := parse_next_i_bounds hnext
      have hle' : iter'.i ≤ iter'.argv.length := by
        rw [hb.1]
        exact hb.2.2.2.2 hle
      simp only [runIter, hnext]
      exact ih (by omega) hle'

theorem iterFuel_create_lt {argv : List Str} {descrs : List OptDescr} :
    iterFuel (argpar_iter_create argv descrs) < suffFuel argv := by
  unfold argpar_iter_create suffFuel
  rw [iterFuel_def_none]
  unfold argvTailWeight
  rw [List.drop_zero]
  omega

/-- The fuel given to the loop inside `argpar_parse` always suffices. -/
theorem argpar_parse_ne_outOfFuel {argv : List Str} {descrs : List OptDescr} :
    (runIter (suffFuel argv) (argpar_iter_create argv descrs)).2.2 ≠ .outOfFuel :=
  runIter_ne_outOfFuel iterFuel_create_lt (by simp [argpar_iter_create])

/-! ### Run-level lemmas -/

/-- When a run stops on an unknown option, the final position is the
index of the argument that contains the unknown option: the failing
call did not advance the iterator. -/
theorem runIter_unknown_stop {fuel : Nat} {iter : Iter} {items : List Item}
    {iterF : Iter} {idx : Nat} {a : Str} {e : ParseErr}
    (h : runIter fuel iter = (items, iterF, .unknownOpt idx a e)) :
    iterF.i = idx := by
  induction fuel generalizing iter items with
  | zero => simp [runIter] at h
  | succ n ih =>
    rcases hnext : argpar_iter_parse_next iter with ⟨st, iter'⟩
    cases st with
    | atEnd => simp [runIter, hnext] at h
    | error idx2 a2 e2 => simp [runIter, hnext] at h
    | ok item =>
      simp only [runIter, hnext] at h
      have h2 : (runIter n iter').2 = (iterF, .unknownOpt idx a e) := by
        have := congrArg Prod.snd h
        simpa using this
      apply @ih iter' ((runIter n iter').1)
      rw [← h2]
    | errorUnknownOpt idx2 a2 e2 =>
      simp only [runIter, hnext, Prod.mk.injEq] at h
      obtain ⟨hsh1, hsh2, hsh3, hsh4⟩ := parse_next_unknown_shape hnext
      obtain ⟨h1, h2, h3⟩ := h
      cases h3
      rw [← h2, hsh3]
      exact hsh4.2.1.symm
/-- Invariant of a run: relative to the starting state, the `k`-th
non-option item produced carries non-option index `start + k`, borrows
the original argument at its original index, and original indices of
non-option items grow strictly along the run. -/
theorem runIter_nonOpts (fuel : Nat) : ∀ iter : Iter,
    (∀ k, k < (nonOptRecs (runIter fuel iter).1).length →
      ((nonOptRecs (runIter fuel iter).1).getD k dummyRec).nonOptIndex =
        iter.nonOptIndex + k) ∧
    (∀ k, k < (nonOptRecs (runIter fuel iter).1).length →
      iter.i ≤ ((nonOptRecs (runIter fuel iter).1).getD k dummyRec).origIndex ∧
      ((nonOptRecs (runIter fuel iter).1).getD k dummyRec).arg =
        iter.argv.getD (((nonOptRecs (runIter fuel iter).1).getD k dummyRec).origIndex) []) ∧
    (∀ j k, j < k → k < (nonOptRecs (runIter fuel iter).1).length →
      ((nonOptRecs (runIter fuel iter).1).getD j dummyRec).origIndex <
        ((nonOptRecs (runIter fuel iter).1).getD k dummyRec).origIndex) := by
  induction fuel with
  | zero =>
    intro iter
    simp [runIter, nonOptRecs]
  | succ n ih =>
    intro iter
    rcases hnext : argpar_iter_parse_next iter with ⟨st, iter'⟩
    cases st with
    | atEnd => simp [runIter, hnext, nonOptRecs]
    | errorUnknownOpt idx a e => simp [runIter, hnext, nonOptRecs]
    | error idx a e => simp [runIter, hnext, nonOptRecs]
    | ok item =>
      have hb := parse_next_i_bounds hnext
      obtain ⟨hne, hcase⟩ := parse_next_ok_shape hnext
      have hrun : (runIter (n + 1) iter).1 = item :: (runIter n iter').1 := by
        simp [runIter, hnext]
      rw [hrun]
      obtain ⟨ih1, ih2, ih3⟩ := ih iter'
      rcases hcase with ⟨hitem, hiter⟩ | ⟨⟨d, v, hitem⟩, hcase2⟩
      · -- non-option item produced
        subst hitem
        have hfn : iter'.nonOptIndex = iter.nonOptIndex + 1 := by rw [hiter]
        have hfi : iter'.i = iter.i + 1 := by rw [hiter]
        simp only [nonOptRecs, List.filterMap_cons] at *
        refine ⟨?_, ?_, ?_⟩
        · intro k hk
          cases k with
          | zero => simp
          | succ k =>
            simp only [List.length_cons] at hk
            have := ih1 k (by omega)
            simp only [List.getD_cons_succ]
            rw [this, hfn]
            omega
        · intro k hk
          cases k with
          | zero => simp
          | succ k =>
            simp only [List.length_cons] at hk
            obtain ⟨h2a, h2b⟩ := ih2 k (by omega)
            simp only [List.getD_cons_succ]
            rw [hb.1] at h2b
            exact ⟨by omega, h2b⟩
        · intro j k hjk hk
          cases k with
          | zero => omega
          | succ k =>
            simp only [List.length_cons] at hk
            cases j with
            | zero =>
              simp only [List.getD_cons_zero, List.getD_cons_succ]
              have h2a := (ih2 k (by omega)).1
              omega
            | succ j =>
              simp only [List.getD_cons_succ]
              exact ih3 j k (by omega) (by omega)
      · -- option item produced
        subst hitem
        have hfn : iter'.nonOptIndex = iter.nonOptIndex := by
          rcases hcase2 with ⟨cur, _, _, hiter⟩ | ⟨sc, _, hrest⟩
          · rw [hiter]
          · rcases hrest with hiter | ⟨hiter, _⟩ <;> rw [hiter]
        simp only [nonOptRecs, List.filterMap_cons] at *
        refine ⟨?_, ?_, ?_⟩
        · intro k hk
          rw [ih1 k hk, hfn]
        · intro k hk
          obtain ⟨h2a, h2b⟩ := ih2 k hk
          rw [hb.1] at h2b
          have hmono : iter.i ≤ iter'.i := hb.2.2.1
          exact ⟨by omega, h2b⟩
        · exact ih3
/-! ### Branch characterizations of the engine -/

theorem strchrSplit_ne_nil {c : Char} {body name val : Str}
    (h : strchrSplit c body = some (name, val)) : body ≠ [] := by
  intro hb
  subst hb
  simp [strchrSplit] at h

/-- Reduction of `parse_long_opt` on an `=`-form argument whose name
fits the buffer. -/
theorem parse_long_opt_eq_form {body name val : Str} {next : Option Str}
    {descrs : List OptDescr} {iter : Iter}
    (hsplit : strchrSplit '=' body = some (name, val))
    (hlen : name.length ≤ 127) :
    parse_long_opt body next descrs iter =
      match find_descr descrs nulChar (some name) with
      | none => (.errorUnknownOpt (.unknownOptLong name), iter)
      | some descr =>
        if descr.withArg then
          (.ok (.opt descr (some val)), { iter with i := iter.i + 1 })
        else
          (.error (.unexpectedOptArgLong name), iter) := by
  unfold parse_long_opt
  rw [if_neg (strchrSplit_ne_nil hsplit), hsplit]
  dsimp only
  rw [if_neg (by omega)]

/-- Reduction of `parse_long_opt` on an `=`-form argument whose name
overflows the 127-character buffer. -/
theorem parse_long_opt_name_too_long {body name val : Str} {next : Option Str}
    {descrs : List OptDescr} {iter : Iter}
    (hsplit : strchrSplit '=' body = some (name, val))
    (hlen : name.length > 127) :
    parse_long_opt body next descrs iter = (.error (.invalidArgLongOpt body), iter) := by
  unfold parse_long_opt
  rw [if_neg (strchrSplit_ne_nil hsplit), hsplit]
  dsimp only
  rw [if_pos hlen]

/-- Reduction of `parse_long_opt` on an argument without `=`. -/
theorem parse_long_opt_no_eq_form {body : Str} {next : Option Str}
    {descrs : List OptDescr} {iter : Iter}
    (hbne : body ≠ []) (hsplit : strchrSplit '=' body = none) :
    parse_long_opt body next descrs iter =
      match find_descr descrs nulChar (some body) with
      | none => (.errorUnknownOpt (.unknownOptLong body), iter)
      | some descr =>
        if descr.withArg then
          match next with
          | none => (.error (.missingOptArgLong body), iter)
          | some nx => (.ok (.opt descr (some nx)), { iter with i := iter.i + 2 })
        else
          (.ok (.opt descr none), { iter with i := iter.i + 1 }) := by
  unfold parse_long_opt
  rw [if_neg hbne, hsplit]

/-- Reduction of `parse_short_opts` once the current position in the
short option group is exposed as `c :: rest`. -/
theorem parse_short_opts_cons {so : Str} {next : Option Str} {descrs : List OptDescr}
    {iter : Iter} {c : Char} {rest : Str}
    (hso : so ≠ []) (hcur : iter.shortOptCh.getD so = c :: rest) :
    parse_short_opts so next descrs iter =
      match find_descr descrs c none with
      | none =>
        (.errorUnknownOpt (.unknownOptShort c), { iter with shortOptCh := some (c :: rest) })
      | some descr =>
        if descr.withArg then
          if rest = [] then
            match next with
            | none =>
              (.error (.missingOptArgShort c), { iter with shortOptCh := some (c :: rest) })
            | some nx =>
              (.ok (.opt descr (some nx)), { iter with shortOptCh := none, i := iter.i + 2 })
          else
            (.ok (.opt descr (some rest)), { iter with shortOptCh := none, i := iter.i + 1 })
        else
          if rest = [] then
            (.ok (.opt descr none), { iter with shortOptCh := none, i := iter.i + 1 })
          else
            (.ok (.opt descr none), { iter with shortOptCh := some rest }) := by
  unfold parse_short_opts
  rw [if_neg hso, hcur]
  cases hfd : find_descr descrs c none with
  | none => simp [hfd]
  | some descr =>
    by_cases hwa : descr.withArg
    · by_cases hrest : rest = []
      · subst hrest
        cases next with
        | none => simp [hfd, hwa]
        | some nx => simp [hfd, hwa]
      · simp [hfd, hwa, hrest]
    · by_cases hrest : rest = []
      · subst hrest
        simp [hfd, hwa]
      · simp [hfd, hwa, hrest]

/-- Reduction of one engine call on a long option argument. -/
theorem parse_next_long {iter : Iter} {body : Str}
    (hlt : iter.i < iter.argv.length)
    (harg : iter.argv.getD iter.i [] = '-' :: '-' :: body) :
    argpar_iter_parse_next iter =
      (match parse_long_opt body
          (if iter.i < iter.argv.length - 1 then some (iter.argv.getD (iter.i + 1) [])
           else none) iter.descrs iter with
        | (.ok item, iter') => (.ok item, iter')
        | (.errorUnknownOpt e, iter') =>
          (.errorUnknownOpt iter'.i ('-' :: '-' :: body) e, iter')
        | (.error e, iter') => (.error iter'.i ('-' :: '-' :: body) e, iter')) := by
  simp only [argpar_iter_parse_next]
  rw [if_neg (by omega), harg, if_neg (by simp)]
  unfold parse_orig_arg_opt
  rw [if_pos (by simp)]
  simp only [List.tail_cons]

/-- Reduction of one engine call on a short option argument. -/
theorem parse_next_short {iter : Iter} {rest : Str}
    (hlt : iter.i < iter.argv.length)
    (harg : iter.argv.getD iter.i [] = '-' :: rest)
    (hr2 : rest.headD nulChar ≠ '-') :
    argpar_iter_parse_next iter =
      (match parse_short_opts rest
          (if iter.i < iter.argv.length - 1 then some (iter.argv.getD (iter.i + 1) [])
           else none) iter.descrs iter with
        | (.ok item, iter') => (.ok item, iter')
        | (.errorUnknownOpt e, iter') => (.errorUnknownOpt iter'.i ('-' :: rest) e, iter')
        | (.error e, iter') => (.error iter'.i ('-' :: rest) e, iter')) := by
  simp only [argpar_iter_parse_next]
  rw [if_neg (by omega), harg, if_neg (by simp)]
  unfold parse_orig_arg_opt
  rw [if_neg (by simpa using hr2)]
  simp only [List.tail_cons]
/-! ### Claim theorems -/

/-- C1 (counterexample): parsing the single original argument `-`
(and likewise `--`) does not produce a non-option item as the claim
states: the engine returns an "Invalid argument" error. -/
theorem claim1_counterexample :
    argpar_iter_parse_next (argpar_iter_create [str "-"] []) =
      (.error 0 (str "-") .invalidArg, argpar_iter_create [str "-"] []) ∧
    (argpar_iter_parse_next (argpar_iter_create [str "-"] [])).1 ≠
      .ok (.nonOpt (str "-") 0 0) ∧
    argpar_iter_parse_next (argpar_iter_create [str "--"] []) =
      (.error 0 (str "--") .invalidArg, argpar_iter_create [str "--"] []) ∧
    (argpar_iter_parse_next (argpar_iter_create [str "--"] [])).1 ≠
      .ok (.nonOpt (str "--") 0 0) := by
  decide

/-- C1 (amended): an original argument that does not start with `-` is
classified as a non-option: the call produces a non-option item
borrowing it, with `orig_index = next_arg_index` and `non_opt_index`
equal to the current non-option counter (then incremented), advances
`next_arg_index` by 1 and returns OK.  The arguments `-` and `--`
alone, however, are NOT non-options: they yield an "Invalid argument"
error that leaves the iterator unchanged. -/
theorem claim1_corrected :
    (∀ iter : Iter, iter.i < iter.argv.length →
      (iter.argv.getD iter.i []).headD nulChar ≠ '-' →
      argpar_iter_parse_next iter =
        (.ok (.nonOpt (iter.argv.getD iter.i []) iter.i iter.nonOptIndex),
          { iter with nonOptIndex := iter.nonOptIndex + 1, i := iter.i + 1 })) ∧
    (∀ iter : Iter, iter.i < iter.argv.length →
      iter.argv.getD iter.i [] = str "-" →
      argpar_iter_parse_next iter = (.error iter.i (str "-") .invalidArg, iter)) ∧
    (∀ iter : Iter, iter.i < iter.argv.length →
      iter.argv.getD iter.i [] = str "--" →
      argpar_iter_parse_next iter = (.error iter.i (str "--") .invalidArg, iter)) := by
  refine ⟨?_, ?_, ?_⟩
  · intro iter h1 h2
    simp only [argpar_iter_parse_next]
    rw [if_neg (by omega), if_pos h2]
  · intro iter h1 h2
    rw [@parse_next_short iter [] h1 (by rw [h2]; rfl) (by decide)]
    rfl
  · intro iter h1 h2
    rw [@parse_next_long iter [] h1 (by rw [h2]; rfl)]
    rfl

/-- C1 (witness): the three cases of the amended claim at concrete
inputs. -/
theorem claim1_corrected_witness :
    argpar_iter_parse_next (argpar_iter_create [str "kilojoule"] []) =
      (.ok (.nonOpt (str "kilojoule") 0 0),
        (⟨[str "kilojoule"], [], 1, 1, none⟩ : Iter)) ∧
    argpar_iter_parse_next (argpar_iter_create [str "-"] []) =
      (.error 0 (str "-") .invalidArg, argpar_iter_create [str "-"] []) ∧
    argpar_iter_parse_next (argpar_iter_create [str "--"] []) =
      (.error 0 (str "--") .invalidArg, argpar_iter_create [str "--"] []) :=
  ⟨claim1_corrected.1 (argpar_iter_create [str "kilojoule"] []) (by decide) (by decide),
    claim1_corrected.2.1 (argpar_iter_create [str "-"] []) (by decide) (by decide),
    claim1_corrected.2.2 (argpar_iter_create [str "--"] []) (by decide) (by decide)⟩

/-- C3 (counterexample): bulk-parsing `-defmeow` with descriptors `d`
(no value), `e` (no value), `f` (takes a value) yields three items, not
four as the claim counts them. -/
theorem claim3_counterexample :
    (argpar_parse [str "-defmeow"]
        [⟨0, 'd', none, false⟩, ⟨0, 'e', none, false⟩, ⟨0, 'f', none, true⟩]
        false).itemsList.length = 3 ∧
    (argpar_parse [str "-defmeow"]
        [⟨0, 'd', none, false⟩, ⟨0, 'e', none, false⟩, ⟨0, 'f', none, true⟩]
        false).itemsList.length ≠ 4 := by
  decide

/-- C3 (amended): parsing the single original argument `-defmeow` with
descriptors `d` (no value), `e` (no value), `f` (takes a value) yields
exactly three items — option `d` with no value, option `e` with no
value, option `f` with value `meow` — and the ingested
original-argument count is 1. -/
theorem claim3_corrected :
    argpar_parse [str "-defmeow"]
        [⟨0, 'd', none, false⟩, ⟨0, 'e', none, false⟩, ⟨0, 'f', none, true⟩] false =
      .success
        [.opt ⟨0, 'd', none, false⟩ none, .opt ⟨0, 'e', none, false⟩ none,
          .opt ⟨0, 'f', none, true⟩ (some (str "meow"))] 1 := by
  decide

/-- C9: an `=`-form long option argument whose name part is longer than
127 characters makes the engine return the generic "Invalid argument"
error (not OK, not UnknownOption), whatever the descriptor table
contains, leaving the iterator unchanged. -/
theorem claim9_confirmed :
    ∀ (iter : Iter) (body name val : Str),
      iter.i < iter.argv.length →
      iter.argv.getD iter.i [] = '-' :: '-' :: body →
      strchrSplit '=' body = some (name, val) →
      name.length > 127 →
      argpar_iter_parse_next iter =
        (.error iter.i ('-' :: '-' :: body) (.invalidArgLongOpt body), iter) := by
  intro iter body name val h1 h2 h3 h4
  rw [parse_next_long h1 h2, parse_long_opt_name_too_long h3 h4]

set_option maxRecDepth 4000 in
/-- C9 (witness): a 128-character long name in `=` form, with a
descriptor carrying exactly that long name present in the table. -/
theorem claim9_witness :
    argpar_iter_parse_next
        (argpar_iter_create ['-' :: '-' :: (List.replicate 128 'a' ++ '=' :: 'b' :: [])]
          [⟨0, nulChar, some (List.replicate 128 'a'), true⟩]) =
      (.error 0 ('-' :: '-' :: (List.replicate 128 'a' ++ '=' :: 'b' :: []))
          (.invalidArgLongOpt (List.replicate 128 'a' ++ '=' :: 'b' :: [])),
        argpar_iter_create ['-' :: '-' :: (List.replicate 128 'a' ++ '=' :: 'b' :: [])]
          [⟨0, nulChar, some (List.replicate 128 'a'), true⟩]) :=
  claim9_confirmed
    (argpar_iter_create ['-' :: '-' :: (List.replicate 128 'a' ++ '=' :: 'b' :: [])]
      [⟨0, nulChar, some (List.replicate 128 'a'), true⟩])
    (List.replicate 128 'a' ++ '=' :: 'b' :: []) (List.replicate 128 'a') ('b' :: [])
    (by decide) (by decide) (by decide) (by decide)

/-- C7: an `=`-form long option whose descriptor does not take a value
makes the engine return an UnexpectedOptionArg error naming the long
option; no item is produced and the iterator is unchanged. -/
theorem claim7_confirmed :
    ∀ (iter : Iter) (body name val : Str) (d : OptDescr),
      iter.i < iter.argv.length →
      iter.argv.getD iter.i [] = '-' :: '-' :: body →
      strchrSplit '=' body = some (name, val) →
      name.length ≤ 127 →
      find_descr iter.descrs nulChar (some name) = some d →
      d.withArg = false →
      argpar_iter_parse_next iter =
        (.error iter.i ('-' :: '-' :: body) (.unexpectedOptArgLong name), iter) := by
  intro iter body name val d h1 h2 h3 h4 h5 h6
  rw [parse_next_long h1 h2, parse_long_opt_eq_form h3 h4, h5]
  dsimp only
  rw [if_neg (by simp [h6])]

/-- C7 (witness): `--chevre=fromage` where `chevre` takes no value. -/
theorem claim7_witness :
    argpar_iter_parse_next
        (argpar_iter_create [str "--chevre=fromage"] [⟨0, 'c', some (str "chevre"), false⟩]) =
      (.error 0 (str "--chevre=fromage") (.unexpectedOptArgLong (str "chevre")),
        argpar_iter_create [str "--chevre=fromage"] [⟨0, 'c', some (str "chevre"), false⟩]) :=
  claim7_confirmed
    (argpar_iter_create [str "--chevre=fromage"] [⟨0, 'c', some (str "chevre"), false⟩])
    (str "chevre=fromage") (str "chevre") (str "fromage")
    ⟨0, 'c', some (str "chevre"), false⟩
    (by decide) (by decide) (by decide) (by decide) (by decide) (by decide)
/-- C4: for a long option argument whose body contains `=`, only the
first `=` separates name and value: whenever the engine returns OK for
such an argument, the matched descriptor is found by the text before
the first `=`, it takes a value, the item's value is exactly the text
after the first `=` (possibly the empty string, which is distinct from
no value), and `next_arg_index` advances by 1. -/
theorem claim4_confirmed :
    ∀ (iter : Iter) (body name val : Str) (item : Item) (iter' : Iter),
      iter.argv.getD iter.i [] = '-' :: '-' :: body →
      strchrSplit '=' body = some (name, val) →
      argpar_iter_parse_next iter = (.ok item, iter') →
      ∃ d, find_descr iter.descrs nulChar (some name) = some d ∧ d.withArg = true ∧
        item = .opt d (some val) ∧ iter' = { iter with i := iter.i + 1 } := by
  intro iter body name val item iter' harg hsplit h
  by_cases hend : iter.i = iter.argv.length
  · rw [parse_next_of_end hend] at h
    simp at h
  · have hlt : iter.i < iter.argv.length := by
      rcases Nat.lt_or_ge iter.i iter.argv.length with hc | hc
      · exact hc
      · rw [List.getD_eq_default _ _ hc] at harg
        simp at harg
    rw [parse_next_long hlt harg] at h
    by_cases hlen : name.length ≤ 127
    · rw [parse_long_opt_eq_form hsplit hlen] at h
      cases hfd : find_descr iter.descrs nulChar (some name) with
      | none =>
        rw [hfd] at h
        simp at h
      | some d =>
        rw [hfd] at h
        dsimp only at h
        by_cases hwa : d.withArg
        · rw [if_pos hwa] at h
          dsimp only at h
          simp only [Prod.mk.injEq] at h
          obtain ⟨hx, hy⟩ := h
          cases hx
          exact ⟨d, rfl, hwa, rfl, hy.symm⟩
        · rw [if_neg hwa] at h
          simp at h
    · rw [parse_long_opt_name_too_long hsplit (by omega)] at h
      simp at h

/-- C4 (witness): `--zebra=three=yes` with `zebra` taking a value gives
the value `three=yes`. -/
theorem claim4_witness :
    ∃ d, find_descr [(⟨0, nulChar, some (str "zebra"), true⟩ : OptDescr)] nulChar
          (some (str "zebra")) = some d ∧
      d.withArg = true ∧
      Item.opt (⟨0, nulChar, some (str "zebra"), true⟩ : OptDescr) (some (str "three=yes")) =
        .opt d (some (str "three=yes")) ∧
      (⟨[str "--zebra=three=yes"], [⟨0, nulChar, some (str "zebra"), true⟩], 1, 0, none⟩ : Iter) =
        { argpar_iter_create [str "--zebra=three=yes"]
            [⟨0, nulChar, some (str "zebra"), true⟩] with
          i := (argpar_iter_create [str "--zebra=three=yes"]
            [⟨0, nulChar, some (str "zebra"), true⟩]).i + 1 } :=
  claim4_confirmed
    (argpar_iter_create [str "--zebra=three=yes"] [⟨0, nulChar, some (str "zebra"), true⟩])
    (str "zebra=three=yes") (str "zebra") (str "three=yes")
    (Item.opt ⟨0, nulChar, some (str "zebra"), true⟩ (some (str "three=yes")))
    (⟨[str "--zebra=three=yes"], [⟨0, nulChar, some (str "zebra"), true⟩], 1, 0, none⟩ : Iter)
    (by decide) (by decide) (by decide)

/-- C6: a space-form option (short or long) whose descriptor takes a
value and for which a next original argument exists consumes that next
argument verbatim as the value — no matter whether it starts with `-` —
and advances `next_arg_index` by 2. -/
theorem claim6_confirmed :
    (∀ (iter : Iter) (body : Str) (d : OptDescr),
      iter.i + 1 < iter.argv.length →
      iter.argv.getD iter.i [] = '-' :: '-' :: body →
      body ≠ [] →
      strchrSplit '=' body = none →
      find_descr iter.descrs nulChar (some body) = some d →
      d.withArg = true →
      argpar_iter_parse_next iter =
        (.ok (.opt d (some (iter.argv.getD (iter.i + 1) []))),
          { iter with i := iter.i + 2 })) ∧
    (∀ (iter : Iter) (so : Str) (c : Char) (d : OptDescr),
      iter.i + 1 < iter.argv.length →
      iter.argv.getD iter.i [] = '-' :: so →
      so.headD nulChar ≠ '-' →
      so ≠ [] →
      iter.shortOptCh.getD so = c :: [] →
      find_descr iter.descrs c none = some d →
      d.withArg = true →
      argpar_iter_parse_next iter =
        (.ok (.opt d (some (iter.argv.getD (iter.i + 1) []))),
          { iter with shortOptCh := none, i := iter.i + 2 })) := by
  constructor
  · intro iter body d hnx harg hbne hsplit hfd hwa
    rw [parse_next_long (by omega) harg, parse_long_opt_no_eq_form hbne hsplit, hfd]
    dsimp only
    rw [if_pos hwa, if_pos (show iter.i < iter.argv.length - 1 by omega)]
  · intro iter so c d hnx harg hso2 hsone hcur hfd hwa
    rw [parse_next_short (by omega) harg hso2, parse_short_opts_cons hsone hcur, hfd]
    dsimp only
    rw [if_pos hwa, if_pos rfl, if_pos (show iter.i < iter.argv.length - 1 by omega)]

/-- C6 (witness): `--janine -sutto` (long, space form) and `-z -will`
(short, space form): the `-`-leading next arguments become the
values. -/
theorem claim6_witness :
    argpar_iter_parse_next
        (argpar_iter_create [str "--janine", str "-sutto"]
          [⟨0, nulChar, some (str "janine"), true⟩]) =
      (.ok (.opt ⟨0, nulChar, some (str "janine"), true⟩ (some (str "-sutto"))),
        { argpar_iter_create [str "--janine", str "-sutto"]
            [⟨0, nulChar, some (str "janine"), true⟩] with
          i := (argpar_iter_create [str "--janine", str "-sutto"]
            [⟨0, nulChar, some (str "janine"), true⟩]).i + 2 }) ∧
    argpar_iter_parse_next
        (argpar_iter_create [str "-z", str "-will"] [⟨0, 'z', none, true⟩]) =
      (.ok (.opt ⟨0, 'z', none, true⟩ (some (str "-will"))),
        { argpar_iter_create [str "-z", str "-will"] [⟨0, 'z', none, true⟩] with
          shortOptCh := none,
          i := (argpar_iter_create [str "-z", str "-will"] [⟨0, 'z', none, true⟩]).i + 2 }) :=
  ⟨claim6_confirmed.1
      (argpar_iter_create [str "--janine", str "-sutto"]
        [⟨0, nulChar, some (str "janine"), true⟩])
      (str "janine") ⟨0, nulChar, some (str "janine"), true⟩
      (by decide) (by decide) (by decide) (by decide) (by decide) (by decide),
    claim6_confirmed.2
      (argpar_iter_create [str "-z", str "-will"] [⟨0, 'z', none, true⟩])
      (str "z") 'z' ⟨0, 'z', none, true⟩
      (by decide) (by decide) (by decide) (by decide) (by decide) (by decide) (by decide)⟩
theorem find_descr_nul_none (descrs : List OptDescr) :
    find_descr descrs nulChar none = none := by
  induction descrs with
  | nil => rfl
  | cons d rest ih =>
    unfold find_descr
    rw [if_neg (by simp), if_neg (by simp [longNameMatches])]
    exact ih

/-- C5: a MissingOptionArg error is returned exactly when the matched
descriptor takes a value, there is no inline (`=`) or glued value, and
no next original argument exists; the error references the offending
option (long name or short character) and is reported at the original
index of the argument containing the option, without advancing the
iterator. -/
theorem claim5_confirmed :
    (∀ (body : Str) (next : Option Str) (descrs : List OptDescr) (iter : Iter) (n : Str),
      (parse_long_opt body next descrs iter).1 = .error (.missingOptArgLong n) ↔
        (n = body ∧ body ≠ [] ∧ strchrSplit '=' body = none ∧
          (∃ d, find_descr descrs nulChar (some body) = some d ∧ d.withArg = true) ∧
          next = none)) ∧
    (∀ (so : Str) (next : Option Str) (descrs : List OptDescr) (iter : Iter) (c : Char),
      (parse_short_opts so next descrs iter).1 = .error (.missingOptArgShort c) ↔
        (so ≠ [] ∧ c = (iter.shortOptCh.getD so).headD nulChar ∧
          (iter.shortOptCh.getD so).tail = [] ∧
          (∃ d, find_descr descrs c none = some d ∧ d.withArg = true) ∧
          next = none)) ∧
    (∀ (iter : Iter) (idx : Nat) (a : Str) (e : ParseErr) (iter' : Iter),
      argpar_iter_parse_next iter = (.error idx a e, iter') →
      e.isMissingOptArg →
      idx = iter.i ∧ argpar_iter_get_ingested_orig_args iter' =
        argpar_iter_get_ingested_orig_args iter) := by
  refine ⟨?_, ?_, ?_⟩
  · intro body next descrs iter n
    constructor
    · intro h
      by_cases hbne : body = []
      · subst hbne
        unfold parse_long_opt at h
        simp at h
      · cases hsp : strchrSplit '=' body with
        | some p =>
          obtain ⟨name, val⟩ := p
          by_cases hlen : name.length ≤ 127
          · rw [parse_long_opt_eq_form hsp hlen] at h
            cases hfd : find_descr descrs nulChar (some name) with
            | none =>
              rw [hfd] at h
              simp at h
            | some d =>
              rw [hfd] at h
              dsimp only at h
              by_cases hwa : d.withArg
              · rw [if_pos hwa] at h
                simp at h
              · rw [if_neg hwa] at h
                simp at h
          · rw [parse_long_opt_name_too_long hsp (by omega)] at h
            simp at h
        | none =>
          rw [parse_long_opt_no_eq_form hbne hsp] at h
          cases hfd : find_descr descrs nulChar (some body) with
          | none =>
            rw [hfd] at h
            simp at h
          | some d =>
            rw [hfd] at h
            dsimp only at h
            by_cases hwa : d.withArg
            · rw [if_pos hwa] at h
              cases next with
              | none =>
                dsimp only at h
                simp only [ParseOrigArgOptRet.error.injEq,
                  ParseErr.missingOptArgLong.injEq] at h
                exact ⟨h.symm, hbne, rfl, ⟨d, rfl, hwa⟩, rfl⟩
              | some nx =>
                simp at h
            · rw [if_neg hwa] at h
              simp at h
    · rintro ⟨hn, hbne, hsp, ⟨d, hfd, hwa⟩, hnx⟩
      subst hn
      subst hnx
      rw [parse_long_opt_no_eq_form hbne hsp, hfd]
      dsimp only
      rw [if_pos hwa]
  · intro so next descrs iter c
    constructor
    · intro h
      by_cases hso : so = []
      · subst hso
        unfold parse_short_opts at h
        simp at h
      · cases hc : iter.shortOptCh.getD so with
        | nil =>
          unfold parse_short_opts at h
          rw [if_neg hso, hc] at h
          dsimp only at h
          rw [List.headD_nil, find_descr_nul_none] at h
          simp at h
        | cons c0 rest =>
          rw [parse_short_opts_cons hso hc] at h
          cases hfd : find_descr descrs c0 none with
          | none =>
            rw [hfd] at h
            simp at h
          | some d =>
            rw [hfd] at h
            dsimp only at h
            by_cases hwa : d.withArg
            · rw [if_pos hwa] at h
              by_cases hrest : rest = []
              · subst hrest
                rw [if_pos rfl] at h
                cases next with
                | none =>
                  dsimp only at h
                  simp only [ParseOrigArgOptRet.error.injEq,
                    ParseErr.missingOptArgShort.injEq] at h
                  subst h
                  exact ⟨hso, rfl, rfl, ⟨d, hfd, hwa⟩, rfl⟩
                | some nx =>
                  simp at h
              · rw [if_neg hrest] at h
                simp at h
            · rw [if_neg hwa] at h
              by_cases hrest : rest = []
              · subst hrest
                rw [if_pos rfl] at h
                simp at h
              · rw [if_neg hrest] at h
                simp at h
    · rintro ⟨hso, hcc, htail, ⟨d, hfd, hwa⟩, hnx⟩
      subst hnx
      cases hc : iter.shortOptCh.getD so with
      | nil =>
        rw [hc, List.headD_nil] at hcc
        subst hcc
        rw [find_descr_nul_none] at hfd
        cases hfd
      | cons c0 rest =>
        rw [hc] at hcc htail
        simp only [List.headD_cons, List.tail_cons] at hcc htail
        subst hcc
        subst htail
        rw [parse_short_opts_cons hso hc, hfd]
        dsimp only
        rw [if_pos hwa, if_pos rfl]
  · intro iter idx a e iter' h hmiss
    obtain ⟨_, _, h3, _, h5, _⟩ := parse_next_error_shape h
    exact ⟨h5, h3⟩

/-- C5 (witness): `--thumb` alone (long) and the last `c` of `-abc`
(short, mid-cluster) with no next argument; plus the reported position
for `--thumb` at original index 0. -/
theorem claim5_witness :
    (parse_long_opt (str "thumb") none [⟨0, nulChar, some (str "thumb"), true⟩]
        (argpar_iter_create [str "--thumb"] [⟨0, nulChar, some (str "thumb"), true⟩])).1 =
      .error (.missingOptArgLong (str "thumb")) ∧
    (parse_short_opts (str "abc") none
        [⟨0, 'a', none, false⟩, ⟨0, 'b', none, false⟩, ⟨0, 'c', none, true⟩]
        (⟨[str "-abc"],
          [⟨0, 'a', none, false⟩, ⟨0, 'b', none, false⟩, ⟨0, 'c', none, true⟩],
          0, 0, some (str "c")⟩ : Iter)).1 =
      .error (.missingOptArgShort 'c') ∧
    ((0 : Nat) = (argpar_iter_create [str "--thumb"]
        [⟨0, nulChar, some (str "thumb"), true⟩]).i ∧
      argpar_iter_get_ingested_orig_args
          (argpar_iter_create [str "--thumb"] [⟨0, nulChar, some (str "thumb"), true⟩]) =
        argpar_iter_get_ingested_orig_args
          (argpar_iter_create [str "--thumb"] [⟨0, nulChar, some (str "thumb"), true⟩])) :=
  ⟨(claim5_confirmed.1 (str "thumb") none [⟨0, nulChar, some (str "thumb"), true⟩]
      (argpar_iter_create [str "--thumb"] [⟨0, nulChar, some (str "thumb"), true⟩])
      (str "thumb")).mpr
      ⟨rfl, by decide, by decide, ⟨⟨0, nulChar, some (str "thumb"), true⟩, by decide, rfl⟩, rfl⟩,
    (claim5_confirmed.2.1 (str "abc") none
      [⟨0, 'a', none, false⟩, ⟨0, 'b', none, false⟩, ⟨0, 'c', none, true⟩]
      (⟨[str "-abc"],
        [⟨0, 'a', none, false⟩, ⟨0, 'b', none, false⟩, ⟨0, 'c', none, true⟩],
        0, 0, some (str "c")⟩ : Iter) 'c').mpr
      ⟨by decide, by decide, by decide,
        ⟨⟨0, 'c', none, true⟩, by decide, rfl⟩, rfl⟩,
    claim5_confirmed.2.2
      (argpar_iter_create [str "--thumb"] [⟨0, nulChar, some (str "thumb"), true⟩])
      0 (str "--thumb") (.missingOptArgLong (str "thumb"))
      (argpar_iter_create [str "--thumb"] [⟨0, nulChar, some (str "thumb"), true⟩])
      (by decide) (by trivial)⟩
/-- C2: an UnknownOption error does not advance the engine's position
(the ingested count is unchanged and the reported index is the current
position); consequently `argpar_parse` with `fail_on_unknown_opt =
false` treats UnknownOption as a soft stop: it discards the error,
keeps the items already produced, reports success, and the ingested
count equals the index of — i.e. the number of original arguments
consumed before — the argument containing the unknown option. -/
theorem claim2_confirmed :
    (∀ (iter : Iter) (idx : Nat) (a : Str) (e : ParseErr) (iter' : Iter),
      argpar_iter_parse_next iter = (.errorUnknownOpt idx a e, iter') →
      argpar_iter_get_ingested_orig_args iter' = argpar_iter_get_ingested_orig_args iter ∧
        idx = iter.i) ∧
    (∀ (argv : List Str) (descrs : List OptDescr) (items : List Item) (iterF : Iter)
        (idx : Nat) (a : Str) (e : ParseErr),
      runIter (suffFuel argv) (argpar_iter_create argv descrs) =
          (items, iterF, .unknownOpt idx a e) →
      argpar_parse argv descrs false = .success items iterF.i ∧ iterF.i = idx) := by
  constructor
  · intro iter idx a e iter' h
    obtain ⟨_, _, h3, _, h5, _⟩ := parse_next_unknown_shape h
    exact ⟨h3, h5⟩
  · intro argv descrs items iterF idx a e h
    refine ⟨?_, runIter_unknown_stop h⟩
    simp [argpar_parse, h]

/-- C2 (witness): `--sink party --food --sink impulse` with only
`sink` (value) described: the unknown-option call at index 2 does not
advance, and tolerant bulk parsing keeps `--sink=party` and reports
two ingested arguments. -/
theorem claim2_witness :
    (argpar_iter_get_ingested_orig_args
        (argpar_iter_create [str "--food"] [⟨0, nulChar, some (str "sink"), true⟩]) =
      argpar_iter_get_ingested_orig_args
        (argpar_iter_create [str "--food"] [⟨0, nulChar, some (str "sink"), true⟩]) ∧
      (0 : Nat) = (argpar_iter_create [str "--food"]
        [⟨0, nulChar, some (str "sink"), true⟩]).i) ∧
    (argpar_parse [str "--sink", str "party", str "--food", str "--sink", str "impulse"]
        [⟨0, nulChar, some (str "sink"), true⟩] false =
      .success [.opt ⟨0, nulChar, some (str "sink"), true⟩ (some (str "party"))]
        (⟨[str "--sink", str "party", str "--food", str "--sink", str "impulse"],
          [⟨0, nulChar, some (str "sink"), true⟩], 2, 0, none⟩ : Iter).i ∧
      (⟨[str "--sink", str "party", str "--food", str "--sink", str "impulse"],
        [⟨0, nulChar, some (str "sink"), true⟩], 2, 0, none⟩ : Iter).i = 2) :=
  ⟨claim2_confirmed.1
      (argpar_iter_create [str "--food"] [⟨0, nulChar, some (str "sink"), true⟩])
      0 (str "--food") (.unknownOptLong (str "food"))
      (argpar_iter_create [str "--food"] [⟨0, nulChar, some (str "sink"), true⟩])
      (by decide),
    claim2_confirmed.2
      [str "--sink", str "party", str "--food", str "--sink", str "impulse"]
      [⟨0, nulChar, some (str "sink"), true⟩]
      [.opt ⟨0, nulChar, some (str "sink"), true⟩ (some (str "party"))]
      (⟨[str "--sink", str "party", str "--food", str "--sink", str "impulse"],
        [⟨0, nulChar, some (str "sink"), true⟩], 2, 0, none⟩ : Iter)
      2 (str "--food") (.unknownOptLong (str "food"))
      (by decide)⟩

/-- C8: in any run from a fresh iterator, the k-th non-option item
produced has `non_opt_index` exactly k (the number of non-option items
before it), borrows the original argument at its `orig_index`, and the
`orig_index` values of non-option items strictly increase along the
run. -/
theorem claim8_confirmed :
    ∀ (fuel : Nat) (argv : List Str) (descrs : List OptDescr),
      (∀ k, k < (nonOptRecs (runIter fuel (argpar_iter_create argv descrs)).1).length →
        ((nonOptRecs (runIter fuel (argpar_iter_create argv descrs)).1).getD k
          dummyRec).nonOptIndex = k) ∧
      (∀ k, k < (nonOptRecs (runIter fuel (argpar_iter_create argv descrs)).1).length →
        ((nonOptRecs (runIter fuel (argpar_iter_create argv descrs)).1).getD k
            dummyRec).arg =
          argv.getD (((nonOptRecs (runIter fuel (argpar_iter_create argv descrs)).1).getD k
            dummyRec).origIndex) []) ∧
      (∀ j k, j < k →
        k < (nonOptRecs (runIter fuel (argpar_iter_create argv descrs)).1).length →
        ((nonOptRecs (runIter fuel (argpar_iter_create argv descrs)).1).getD j
            dummyRec).origIndex <
          ((nonOptRecs (runIter fuel (argpar_iter_create argv descrs)).1).getD k
            dummyRec).origIndex) := by
  intro fuel argv descrs
  obtain ⟨h1, h2, h3⟩ := runIter_nonOpts fuel (argpar_iter_create argv descrs)
  refine ⟨fun k hk => ?_, fun k hk => (h2 k hk).2, h3⟩
  have := h1 k hk
  simpa [argpar_iter_create] using this

/-- C8 (witness): the run over `a -f b` with `f` (no value) produces
non-option records for `a` (orig 0) and `b` (orig 2) with dense
non-option indices 0 and 1, in strictly increasing original order. -/
theorem claim8_witness :
    ((nonOptRecs (runIter (suffFuel [str "a", str "-f", str "b"])
        (argpar_iter_create [str "a", str "-f", str "b"] [⟨0, 'f', none, false⟩])).1).getD 1
      dummyRec).nonOptIndex = 1 ∧
    ((nonOptRecs (runIter (suffFuel [str "a", str "-f", str "b"])
        (argpar_iter_create [str "a", str "-f", str "b"] [⟨0, 'f', none, false⟩])).1).getD 1
      dummyRec).arg =
      [str "a", str "-f", str "b"].getD
        (((nonOptRecs (runIter (suffFuel [str "a", str "-f", str "b"])
          (argpar_iter_create [str "a", str "-f", str "b"] [⟨0, 'f', none, false⟩])).1).getD 1
          dummyRec).origIndex) [] ∧
    ((nonOptRecs (runIter (suffFuel [str "a", str "-f", str "b"])
        (argpar_iter_create [str "a", str "-f", str "b"] [⟨0, 'f', none, false⟩])).1).getD 0
      dummyRec).origIndex <
      ((nonOptRecs (runIter (suffFuel [str "a", str "-f", str "b"])
        (argpar_iter_create [str "a", str "-f", str "b"] [⟨0, 'f', none, false⟩])).1).getD 1
        dummyRec).origIndex :=
  ⟨(claim8_confirmed (suffFuel [str "a", str "-f", str "b"]) [str "a", str "-f", str "b"]
      [⟨0, 'f', none, false⟩]).1 1 (by decide),
    (claim8_confirmed (suffFuel [str "a", str "-f", str "b"]) [str "a", str "-f", str "b"]
      [⟨0, 'f', none, false⟩]).2.1 1 (by decide),
    (claim8_confirmed (suffFuel [str "a", str "-f", str "b"]) [str "a", str "-f", str "b"]
      [⟨0, 'f', none, false⟩]).2.2 0 1 (by decide) (by decide)⟩

/-- C10: every engine call changes `next_arg_index` (the ingested
count) by exactly 0, 1 or 2, never decreases it and never moves it past
the argument count; once the index equals the argument count the call
returns End and leaves the iterator untouched. -/
theorem claim10_confirmed :
    ∀ (iter : Iter) (st : NextStatus) (iter' : Iter),
      argpar_iter_parse_next iter = (st, iter') →
      (argpar_iter_get_ingested_orig_args iter ≤ argpar_iter_get_ingested_orig_args iter' ∧
        argpar_iter_get_ingested_orig_args iter' ≤
          argpar_iter_get_ingested_orig_args iter + 2) ∧
      (iter.i ≤ iter.argv.length → iter'.i ≤ iter.argv.length) ∧
      (iter.i = iter.argv.length → st = .atEnd ∧ iter' = iter) := by
  intro iter st iter' h
  have hb := parse_next_i_bounds h
  refine ⟨⟨hb.2.2.1, hb.2.2.2.1⟩, hb.2.2.2.2, fun hEnd => ?_⟩
  have h2 := parse_next_of_end hEnd
  rw [h] at h2
  injection h2 with h3 h4
  exact ⟨h3, h4⟩

/-- C10 (witness): one call over the single argument `x`. -/
theorem claim10_witness :
    (argpar_iter_get_ingested_orig_args (argpar_iter_create [str "x"] []) ≤
        argpar_iter_get_ingested_orig_args (⟨[str "x"], [], 1, 1, none⟩ : Iter) ∧
      argpar_iter_get_ingested_orig_args (⟨[str "x"], [], 1, 1, none⟩ : Iter) ≤
        argpar_iter_get_ingested_orig_args (argpar_iter_create [str "x"] []) + 2) ∧
    ((argpar_iter_create [str "x"] []).i ≤ (argpar_iter_create [str "x"] []).argv.length →
      (⟨[str "x"], [], 1, 1, none⟩ : Iter).i ≤
        (argpar_iter_create [str "x"] []).argv.length) ∧
    ((argpar_iter_create [str "x"] []).i = (argpar_iter_create [str "x"] []).argv.length →
      NextStatus.ok (.nonOpt (str "x") 0 0) = .atEnd ∧
      (⟨[str "x"], [], 1, 1, none⟩ : Iter) = argpar_iter_create [str "x"] []) :=
  claim10_confirmed (argpar_iter_create [str "x"] [])
    (.ok (.nonOpt (str "x") 0 0)) (⟨[str "x"], [], 1, 1, none⟩ : Iter) (by decide)
end Argpar
